import Mathlib

/-!
Verification of the Options Pricing / Greeks Engine of the finop-backend
repository against its natural-language specification.

The repository re-implements the same Black-Scholes Greeks calculation in
several near-duplicate backend files.  This development embeds, over ℝ, the
variants the claims cite:

* `calculateGreeks_v1` — `src/server.js` lines 247-286 (guarded variant:
  returns an object with `error: 'Invalid inputs'` and zeroed fields when
  `T <= 0 || sigma <= 0`);
* `calculateGreeks_v2` — `src/server.js` lines 761-799 (fallback variant:
  returns intrinsic-value prices with `delta: 0.5` when `T <= 0 || sigma <= 0`);
* `calculateGreeks_p0` — `src/unnamed/part_000` lines 139-169 (variant whose
  normal CDF calls `Math.erf`, a function that does not exist in ECMAScript);
* `erf` — the Abramowitz–Stegun error-function polynomial approximation that
  appears verbatim in `src/server.js` (lines 288-294 and 772-780) and
  `src/unnamed/part_001` (lines 174-180 and 604-610).

JavaScript `Number` arithmetic is modelled by real arithmetic (`Real.log`,
`Real.exp`, `Real.sqrt`); `x.toFixed(n)` followed by `parseFloat` is modelled
by `roundTo n` (ECMAScript `toFixed` rounds to the nearest multiple of
`10 ^ (-n)`, breaking ties toward the larger value, which is exactly
Mathlib's `round`).  A small IEEE-754 value domain `FP` is introduced at the
end to settle the saturation-at-infinity claim.
-/

/-- `x.toFixed(n)` followed by `parseFloat`: round `x` to `n` decimal places
(nearest, ties toward the larger value — ECMAScript 15.7.4.5 picks the larger
candidate, which agrees with Mathlib `round`). -/
noncomputable def roundTo (n : ℕ) (x : ℝ) : ℝ := ((round (x * 10 ^ n) : ℤ) : ℝ) / 10 ^ n

/-- Abramowitz–Stegun error-function approximation, transcribed from
`src/server.js` lines 288-294:
`a1=0.254829592, a2=-0.284496736, a3=1.421413741, a4=-1.453152027,`
`a5=1.061405429, p=0.3275911`; `sign = x < 0 ? -1 : 1; x = |x|;`
`t = 1/(1 + p*x);`
`return sign * (1 - (((((a5*t + a4)*t + a3)*t + a2)*t + a1)*t) * exp(-x*x))`. -/
noncomputable def erf (x : ℝ) : ℝ :=
  let sign : ℝ := if x < 0 then -1 else 1
  let ax := |x|
  let t := 1 / (1 + 0.3275911 * ax)
  sign * (1 - (((((1.061405429 * t + (-1.453152027)) * t + 1.421413741) * t +
    (-0.284496736)) * t + 0.254829592) * t) * Real.exp (-ax * ax))

/-- The inner Horner polynomial of `erf` before the final multiplication by
`t`: `a5*t^4 + a4*t^3 + a3*t^2 + a2*t + a1`. -/
noncomputable def erfPoly (t : ℝ) : ℝ :=
  (((1.061405429 * t + (-1.453152027)) * t + 1.421413741) * t + (-0.284496736)) * t +
    0.254829592

/-- Normal CDF as written in `src/server.js` line 267 (variant at line 247):
`N = (x) => 0.5 * (1 + erf(x / Math.sqrt(2)))`. -/
noncomputable def N (x : ℝ) : ℝ := 0.5 * (1 + erf (x / Real.sqrt 2))

/-- Normal CDF as written in `src/server.js` line 782 (variant at line 761):
`N = (x) => (1 + erf(x / Math.sqrt(2))) / 2`. -/
noncomputable def N_v2 (x : ℝ) : ℝ := (1 + erf (x / Real.sqrt 2)) / 2

/-- Normal PDF as written in `src/server.js` line 268:
`n = (x) => Math.exp(-0.5 * x * x) / Math.sqrt(2 * Math.PI)`. -/
noncomputable def nPdf (x : ℝ) : ℝ := Real.exp (-0.5 * x * x) / Real.sqrt (2 * Real.pi)

/-- Normal PDF as written in `src/server.js` line 783:
`phi = (x) => Math.exp(-(x*x)/2) / Math.sqrt(2 * Math.PI)`. -/
noncomputable def phi (x : ℝ) : ℝ := Real.exp (-(x * x) / 2) / Real.sqrt (2 * Real.pi)

/-- Result object of the `src/server.js` line 247 variant.  The valid branch
returns no `error` member; the invalid branch adds `error: 'Invalid inputs'`;
modelled by an `Option String` field. -/
structure Greeks where
  delta : ℝ
  gamma : ℝ
  theta : ℝ
  vega : ℝ
  callPrice : ℝ
  putPrice : ℝ
  error : Option String


/-- Result object of the `src/server.js` line 761 variant (no error member
in either branch). -/
structure Greeks2 where
  callPrice : ℝ
  putPrice : ℝ
  delta : ℝ
  gamma : ℝ
  theta : ℝ
  vega : ℝ


/-- `r = 0.065` as fixed in both `src/server.js` variants. -/
noncomputable def rfrate : ℝ := 0.065

/-- `d1` of the `src/server.js` line 247 variant:
`(Math.log(spot/strike) + (r + (sigma ** 2) / 2) * T) / (sigma * Math.sqrt(T))`
with `T = daysToExpiry / 365`, `sigma = iv / 100`. -/
noncomputable def v1_d1 (spot strike daysToExpiry iv : ℝ) : ℝ :=
  (Real.log (spot / strike) + (rfrate + (iv / 100) ^ 2 / 2) * (daysToExpiry / 365)) /
    ((iv / 100) * Real.sqrt (daysToExpiry / 365))

/-- `d2 = d1 - sigma * Math.sqrt(T)` of the line 247 variant. -/
noncomputable def v1_d2 (spot strike daysToExpiry iv : ℝ) : ℝ :=
  v1_d1 spot strike daysToExpiry iv - (iv / 100) * Real.sqrt (daysToExpiry / 365)

/-- Unrounded `delta = N(d1)` of the line 247 variant. -/
noncomputable def v1_deltaRaw (spot strike daysToExpiry iv : ℝ) : ℝ :=
  N (v1_d1 spot strike daysToExpiry iv)

/-- Unrounded `gamma = n(d1) / (spot * sigma * Math.sqrt(T))` of the line 247
variant. -/
noncomputable def v1_gammaRaw (spot strike daysToExpiry iv : ℝ) : ℝ :=
  nPdf (v1_d1 spot strike daysToExpiry iv) /
    (spot * (iv / 100) * Real.sqrt (daysToExpiry / 365))

/-- Unrounded `theta` of the line 247 variant:
`(-(spot*n(d1)*sigma)/(2*Math.sqrt(T)) - r*strike*Math.exp(-r*T)*N(d2)) / 365`. -/
noncomputable def v1_thetaRaw (spot strike daysToExpiry iv : ℝ) : ℝ :=
  (-(spot * nPdf (v1_d1 spot strike daysToExpiry iv) * (iv / 100)) /
      (2 * Real.sqrt (daysToExpiry / 365)) -
    rfrate * strike * Real.exp (-rfrate * (daysToExpiry / 365)) *
      N (v1_d2 spot strike daysToExpiry iv)) / 365

/-- Unrounded `vega = (spot * n(d1) * Math.sqrt(T)) / 100` of the line 247
variant (note the division by 100). -/
noncomputable def v1_vegaRaw (spot strike daysToExpiry iv : ℝ) : ℝ :=
  spot * nPdf (v1_d1 spot strike daysToExpiry iv) * Real.sqrt (daysToExpiry / 365) / 100

/-- Unrounded `callPrice = spot*N(d1) - strike*Math.exp(-r*T)*N(d2)` of the
line 247 variant. -/
noncomputable def v1_callRaw (spot strike daysToExpiry iv : ℝ) : ℝ :=
  spot * N (v1_d1 spot strike daysToExpiry iv) -
    strike * Real.exp (-rfrate * (daysToExpiry / 365)) * N (v1_d2 spot strike daysToExpiry iv)

/-- Unrounded `putPrice = strike*Math.exp(-r*T)*N(-d2) - spot*N(-d1)` of the
line 247 variant. -/
noncomputable def v1_putRaw (spot strike daysToExpiry iv : ℝ) : ℝ :=
  strike * Real.exp (-rfrate * (daysToExpiry / 365)) * N (-v1_d2 spot strike daysToExpiry iv) -
    spot * N (-v1_d1 spot strike daysToExpiry iv)

/-- `calculateGreeks` of `src/server.js` lines 247-286: guard
`if (T <= 0 || sigma <= 0)` returns zeroed fields with
`error: 'Invalid inputs'`; otherwise the Black-Scholes fields, rounded with
`toFixed(4)/(6)/(2)/(4)/(2)/(2)` respectively. -/
noncomputable def calculateGreeks_v1 (spot strike daysToExpiry iv : ℝ) : Greeks :=
  if daysToExpiry / 365 ≤ 0 ∨ iv / 100 ≤ 0 then
    { delta := 0, gamma := 0, theta := 0, vega := 0, callPrice := 0, putPrice := 0,
      error := some ("Invalid inputs") }
  else
    { delta := roundTo 4 (v1_deltaRaw spot strike daysToExpiry iv)
      gamma := roundTo 6 (v1_gammaRaw spot strike daysToExpiry iv)
      theta := roundTo 2 (v1_thetaRaw spot strike daysToExpiry iv)
      vega := roundTo 4 (v1_vegaRaw spot strike daysToExpiry iv)
      callPrice := roundTo 2 (v1_callRaw spot strike daysToExpiry iv)
      putPrice := roundTo 2 (v1_putRaw spot strike daysToExpiry iv)
      error := none }

/-- `d1` of the `src/server.js` line 761 variant:
`(Math.log(spot / strike) + (r + (sigma*sigma)/2)*T) / (sigma*sqrtT)`. -/
noncomputable def v2_d1 (spot strike dte vol : ℝ) : ℝ :=
  (Real.log (spot / strike) + (rfrate + ((vol / 100) * (vol / 100)) / 2) * (dte / 365)) /
    ((vol / 100) * Real.sqrt (dte / 365))

/-- `d2 = d1 - sigma * sqrtT` of the line 761 variant. -/
noncomputable def v2_d2 (spot strike dte vol : ℝ) : ℝ :=
  v2_d1 spot strike dte vol - (vol / 100) * Real.sqrt (dte / 365)

/-- Unrounded `call = spot*N(d1) - strike*Math.exp(-r*T)*N(d2)` of the line
761 variant. -/
noncomputable def v2_callRaw (spot strike dte vol : ℝ) : ℝ :=
  spot * N_v2 (v2_d1 spot strike dte vol) -
    strike * Real.exp (-rfrate * (dte / 365)) * N_v2 (v2_d2 spot strike dte vol)

/-- Unrounded `put = strike*Math.exp(-r*T)*N(-d2) - spot*N(-d1)` of the line
761 variant. -/
noncomputable def v2_putRaw (spot strike dte vol : ℝ) : ℝ :=
  strike * Real.exp (-rfrate * (dte / 365)) * N_v2 (-v2_d2 spot strike dte vol) -
    spot * N_v2 (-v2_d1 spot strike dte vol)

/-- Unrounded `theta` of the line 761 variant:
`-(spot*phi(d1)*sigma)/(2*sqrtT)/365` — no risk-free-rate term. -/
noncomputable def v2_thetaRaw (spot strike dte vol : ℝ) : ℝ :=
  -(spot * phi (v2_d1 spot strike dte vol) * (vol / 100)) /
    (2 * Real.sqrt (dte / 365)) / 365

/-- Unrounded `vega = spot*phi(d1)*sqrtT` of the line 761 variant (no
division by 100). -/
noncomputable def v2_vegaRaw (spot strike dte vol : ℝ) : ℝ :=
  spot * phi (v2_d1 spot strike dte vol) * Real.sqrt (dte / 365)

/-- `calculateGreeks` of `src/server.js` lines 761-799: guard
`if (T <= 0 || sigma <= 0)` returns
`{callPrice: Math.max(spot-strike,0), putPrice: Math.max(strike-spot,0),`
`delta: 0.5, gamma: 0, theta: 0, vega: 0}` (intrinsic values, no error
member); otherwise the Black-Scholes fields rounded with
`toFixed(2)/(2)/(4)/(6)/(2)/(2)`. -/
noncomputable def calculateGreeks_v2 (spot strike dte vol : ℝ) : Greeks2 :=
  if dte / 365 ≤ 0 ∨ vol / 100 ≤ 0 then
    { callPrice := max (spot - strike) 0, putPrice := max (strike - spot) 0,
      delta := 0.5, gamma := 0, theta := 0, vega := 0 }
  else
    { callPrice := roundTo 2 (v2_callRaw spot strike dte vol)
      putPrice := roundTo 2 (v2_putRaw spot strike dte vol)
      delta := roundTo 4 (N_v2 (v2_d1 spot strike dte vol))
      gamma := roundTo 6 (phi (v2_d1 spot strike dte vol) /
        (spot * (vol / 100) * Real.sqrt (dte / 365)))
      theta := roundTo 2 (v2_thetaRaw spot strike dte vol)
      vega := roundTo 2 (v2_vegaRaw spot strike dte vol) }

/-- JavaScript runtime error raised when a value that is not a function is
called. -/
inductive JsError where
  | typeError

/-- The ECMAScript `Math` object has no `erf` member: the property access
`Math.erf` evaluates to `undefined` in every conforming engine (the
ECMAScript specification's list of `Math` function properties contains no
`erf`, and the repository defines no polyfill).  Modelled as the absent
function. -/
def mathErf : Option (ℝ → ℝ) := none

/-- Result object of the `src/unnamed/part_000` variant (fields `callPrice`,
`putPrice`, `delta`, `gamma`, `theta`, `vega`, `rho`). -/
structure GreeksP0 where
  callPrice : ℝ
  putPrice : ℝ
  delta : ℝ
  gamma : ℝ
  theta : ℝ
  vega : ℝ
  rho : ℝ

/-- `calculateGreeks` of `src/unnamed/part_000` lines 139-169.  Its normal
CDF is `N = (x) => (1 + Math.erf(x / Math.sqrt(2))) / 2`; since `Math.erf`
is `undefined` (see `mathErf`), invoking it throws `TypeError`, so every
call of the function fails before any field is produced.  Modelled with
`Except`: when `mathErf` is absent the computation is the thrown error;
the `.ok` branch shows the fields the code would build were the function
present. -/
noncomputable def calculateGreeks_p0 (spot strike daysToExpiry volatility riskFreeRate : ℝ) :
    Except JsError GreeksP0 :=
  let T := daysToExpiry / 365
  let r := riskFreeRate / 100
  let sigma := volatility / 100
  let sqrtT := Real.sqrt T
  let d1 := (Real.log (spot / strike) + (r + (sigma * sigma) / 2) * T) / (sigma * sqrtT)
  let d2 := d1 - sigma * sqrtT
  match mathErf with
  | none => Except.error JsError.typeError
  | some jerf =>
    let Nf : ℝ → ℝ := fun x => (1 + jerf (x / Real.sqrt 2)) / 2
    let phif : ℝ → ℝ := fun x => Real.exp (-(x * x) / 2) / Real.sqrt (2 * Real.pi)
    Except.ok
      { callPrice := roundTo 2 (spot * Nf d1 - strike * Real.exp (-r * T) * Nf d2)
        putPrice := roundTo 2 (strike * Real.exp (-r * T) * Nf (-d2) - spot * Nf (-d1))
        delta := roundTo 4 (Nf d1)
        gamma := roundTo 6 (phif d1 / (spot * sigma * sqrtT))
        theta := roundTo 2 ((-(spot * phif d1 * sigma) / (2 * sqrtT) -
          r * strike * Real.exp (-r * T) * Nf d2) / 365)
        vega := roundTo 2 (spot * phif d1 * sqrtT)
        rho := roundTo 4 (strike * T * Real.exp (-r * T) * Nf d2) }

namespace spec

/-- Year fraction, spec §4 step 1: `T = daysToExpiry / 365`. -/
noncomputable def T (daysToExpiry : ℝ) : ℝ := daysToExpiry / 365

/-- Decimal rate, spec §4 step 2: `r = riskFreeRate / 100`. -/
noncomputable def r (riskFreeRate : ℝ) : ℝ := riskFreeRate / 100

/-- Decimal volatility, spec §4 step 2: `sigma = volatility / 100`. -/
noncomputable def sigma (volatility : ℝ) : ℝ := volatility / 100

/-- Spec §4 step 3: `d1 = (ln(spot/strike) + (r + sigma²/2)·T) / (sigma·sqrt(T))`. -/
noncomputable def d1 (spot strike daysToExpiry volatility riskFreeRate : ℝ) : ℝ :=
  (Real.log (spot / strike) +
      (r riskFreeRate + sigma volatility ^ 2 / 2) * T daysToExpiry) /
    (sigma volatility * Real.sqrt (T daysToExpiry))

/-- Spec §4 step 3: `d2 = d1 - sigma·sqrt(T)`. -/
noncomputable def d2 (spot strike daysToExpiry volatility riskFreeRate : ℝ) : ℝ :=
  d1 spot strike daysToExpiry volatility riskFreeRate -
    sigma volatility * Real.sqrt (T daysToExpiry)

/-- Spec §4 step 4: standard normal CDF built from the Abramowitz–Stegun
error-function approximation, `Ncdf(x) = (1 + erf(x/√2))/2`. -/
noncomputable def Ncdf (x : ℝ) : ℝ := (1 + erf (x / Real.sqrt 2)) / 2

/-- Spec §4 step 4: standard normal PDF `φ(x) = exp(-x²/2)/sqrt(2π)`. -/
noncomputable def phi (x : ℝ) : ℝ := Real.exp (-x ^ 2 / 2) / Real.sqrt (2 * Real.pi)

/-- Spec §4 step 6: full annual theta
`-(spot·φ(d1)·sigma)/(2·sqrt(T)) - r·strike·exp(-r·T)·N(d2)` (including the
risk-free-rate term). -/
noncomputable def thetaAnnual (spot strike daysToExpiry volatility riskFreeRate : ℝ) : ℝ :=
  -(spot * phi (d1 spot strike daysToExpiry volatility riskFreeRate) * sigma volatility) /
      (2 * Real.sqrt (T daysToExpiry)) -
    r riskFreeRate * strike * Real.exp (-r riskFreeRate * T daysToExpiry) *
      Ncdf (d2 spot strike daysToExpiry volatility riskFreeRate)

/-- Spec §4 step 6: `vega = spot·φ(d1)·sqrt(T)` (no division by 100). -/
noncomputable def vega (spot strike daysToExpiry volatility riskFreeRate : ℝ) : ℝ :=
  spot * phi (d1 spot strike daysToExpiry volatility riskFreeRate) *
    Real.sqrt (T daysToExpiry)


/-- Spec §4 step 6: `gamma = φ(d1) / (spot·sigma·sqrt(T))`. -/
noncomputable def gamma (spot strike daysToExpiry volatility riskFreeRate : ℝ) : ℝ :=
  phi (d1 spot strike daysToExpiry volatility riskFreeRate) /
    (spot * sigma volatility * Real.sqrt (T daysToExpiry))

/-- Spec §4 step 5: `call = spot·N(d1) - strike·exp(-r·T)·N(d2)`. -/
noncomputable def call (spot strike daysToExpiry volatility riskFreeRate : ℝ) : ℝ :=
  spot * Ncdf (d1 spot strike daysToExpiry volatility riskFreeRate) -
    strike * Real.exp (-r riskFreeRate * T daysToExpiry) *
      Ncdf (d2 spot strike daysToExpiry volatility riskFreeRate)

/-- Spec §4 step 5: `put = strike·exp(-r·T)·N(-d2) - spot·N(-d1)`. -/
noncomputable def put (spot strike daysToExpiry volatility riskFreeRate : ℝ) : ℝ :=
  strike * Real.exp (-r riskFreeRate * T daysToExpiry) *
    Ncdf (-d2 spot strike daysToExpiry volatility riskFreeRate) -
    spot * Ncdf (-d1 spot strike daysToExpiry volatility riskFreeRate)

end spec

/-- The factor that `erf` subtracts from (or adds to) `±1`:
`erfCore ax = 1 - erfPoly(t)·t·exp(-ax²)` with `t = 1/(1+p·ax)`. -/
noncomputable def erfCore (ax : ℝ) : ℝ :=
  1 - erfPoly (1 / (1 + 0.3275911 * ax)) * (1 / (1 + 0.3275911 * ax)) * Real.exp (-ax * ax)

/-- IEEE-754 double values as produced by ECMAScript arithmetic, abstracted
to exact reals plus the special values: `num x` is a finite value of real
value `x`, `inf`/`ninf` the two infinities, `nan` Not-a-Number.  The
operations below implement the IEEE-754/ECMAScript rules for these cases
(rounding of finite results to 53-bit precision is not modelled — it plays
no role in saturation at infinities). -/
inductive FP where
  | num (x : ℝ)
  | inf
  | ninf
  | nan

namespace FP

/-- ECMAScript `<` (any comparison involving NaN is false). -/
noncomputable def flt : FP → FP → Bool
  | nan, _ => false
  | _, nan => false
  | num x, num y => decide (x < y)
  | num _, inf => true
  | num _, ninf => false
  | inf, _ => false
  | ninf, inf => true
  | ninf, num _ => true
  | ninf, ninf => false

/-- `Math.abs`. -/
noncomputable def fabs : FP → FP
  | num x => num |x|
  | inf => inf
  | ninf => inf
  | nan => nan

/-- Unary minus. -/
noncomputable def fneg : FP → FP
  | num x => num (-x)
  | inf => ninf
  | ninf => inf
  | nan => nan

/-- IEEE addition: `∞ + (-∞) = NaN`, infinities absorb finite values. -/
noncomputable def fadd : FP → FP → FP
  | nan, _ => nan
  | _, nan => nan
  | num x, num y => num (x + y)
  | num _, inf => inf
  | num _, ninf => ninf
  | inf, num _ => inf
  | inf, inf => inf
  | inf, ninf => nan
  | ninf, num _ => ninf
  | ninf, ninf => ninf
  | ninf, inf => nan

/-- IEEE multiplication: `±∞ · 0 = NaN`, otherwise signs propagate. -/
noncomputable def fmul : FP → FP → FP
  | nan, _ => nan
  | _, nan => nan
  | num x, num y => num (x * y)
  | num x, inf => if 0 < x then inf else if x < 0 then ninf else nan
  | num x, ninf => if 0 < x then ninf else if x < 0 then inf else nan
  | inf, num y => if 0 < y then inf else if y < 0 then ninf else nan
  | ninf, num y => if 0 < y then ninf else if y < 0 then inf else nan
  | inf, inf => inf
  | inf, ninf => ninf
  | ninf, inf => ninf
  | ninf, ninf => inf

/-- IEEE subtraction. -/
noncomputable def fsub (a b : FP) : FP := fadd a (fneg b)

/-- IEEE division: a finite value divided by an infinity is `0`; an infinity
divided by a finite nonzero value keeps the combined sign; `∞/∞ = NaN`;
division of a nonzero finite value by `0` gives a signed infinity. -/
noncomputable def fdiv : FP → FP → FP
  | nan, _ => nan
  | _, nan => nan
  | num x, num y =>
      if y = 0 then (if x = 0 then nan else if 0 < x then inf else ninf) else num (x / y)
  | num _, inf => num 0
  | num _, ninf => num 0
  | inf, num y => if 0 < y then inf else if y < 0 then ninf else inf
  | ninf, num y => if 0 < y then ninf else if y < 0 then inf else ninf
  | inf, inf => nan
  | inf, ninf => nan
  | ninf, inf => nan
  | ninf, ninf => nan

/-- `Math.exp`: `exp(∞) = ∞`, `exp(-∞) = 0`. -/
noncomputable def fexp : FP → FP
  | num x => num (Real.exp x)
  | inf => inf
  | ninf => num 0
  | nan => nan

end FP

/-- The Abramowitz–Stegun `erf` of `src/server.js` lines 288-294 (identical
at lines 772-780), re-read over the IEEE value domain `FP`, operation by
operation: `sign = x < 0 ? -1 : 1; x = |x|; t = 1/(1 + p*x);`
`sign * (1 - (((((a5*t+a4)*t+a3)*t+a2)*t+a1)*t) * exp(-x*x))`. -/
noncomputable def erfFP (x : FP) : FP :=
  let sign : FP := if FP.flt x (FP.num 0) then FP.num (-1) else FP.num 1
  let ax := FP.fabs x
  let t := FP.fdiv (FP.num 1) (FP.fadd (FP.num 1) (FP.fmul (FP.num 0.3275911) ax))
  FP.fmul sign (FP.fsub (FP.num 1) (FP.fmul
    (FP.fmul (FP.fadd (FP.fmul (FP.fadd (FP.fmul (FP.fadd (FP.fmul (FP.fadd
      (FP.fmul (FP.num 1.061405429) t) (FP.num (-1.453152027))) t)
      (FP.num 1.421413741)) t) (FP.num (-0.284496736))) t)
      (FP.num 0.254829592)) t)
    (FP.fexp (FP.fmul (FP.fneg ax) ax))))

/-- The normal CDF of `src/server.js` line 782,
`N = (x) => (1 + erf(x / Math.sqrt(2))) / 2`, over the IEEE value domain. -/
noncomputable def NFP (x : FP) : FP :=
  FP.fdiv (FP.fadd (FP.num 1) (erfFP (FP.fdiv x (FP.num (Real.sqrt 2))))) (FP.num 2)

/-- The quartic `erfPoly` is bounded below by a positive constant on all of ℝ:
it equals `0.7265760135·t²(t-1)² + 0.142248368·(t-1)² + 0.3348294155·t⁴ +
0.5525893595·t² + 0.112581224`. -/
lemma erfPoly_pos (t : ℝ) : 0.112 < erfPoly t := by
  unfold erfPoly
  nlinarith [sq_nonneg (t * (t - 1)), sq_nonneg (t - 1), sq_nonneg (t * t), sq_nonneg t]

/-- On `[0,1]` the product `t * erfPoly t` is at most `1.392`. -/
lemma t_mul_erfPoly_le (t : ℝ) (h0 : 0 ≤ t) (h1 : t ≤ 1) : t * erfPoly t ≤ 1.392 := by
  unfold erfPoly
  nlinarith [mul_nonneg h0 h0, mul_nonneg (mul_nonneg h0 h0) h0,
    mul_nonneg (mul_nonneg (mul_nonneg h0 h0) h0) h0,
    mul_nonneg (mul_nonneg h0 h0) (sub_nonneg.2 h1),
    mul_nonneg (mul_nonneg (mul_nonneg h0 h0) (mul_nonneg h0 h0)) (sub_nonneg.2 h1),
    mul_nonneg h0 (sub_nonneg.2 h1)]

/-- `erf` in terms of its sign and `erfCore` of the absolute value. -/
lemma erf_eq_sign_mul (x : ℝ) :
    erf x = (if x < 0 then (-1 : ℝ) else 1) * erfCore |x| := by
  unfold erf erfCore erfPoly
  ring_nf

/-- For a nonnegative argument `erfCore` lies in `[-0.392, 1)`. -/
lemma erfCore_bounds (ax : ℝ) (h : 0 ≤ ax) : -0.392 ≤ erfCore ax ∧ erfCore ax < 1 := by
  unfold erfCore
  set t : ℝ := 1 / (1 + 0.3275911 * ax) with ht
  have hden : (0 : ℝ) < 1 + 0.3275911 * ax := by nlinarith
  have ht0 : 0 < t := by positivity
  have ht1 : t ≤ 1 := by
    rw [ht, div_le_one hden]; nlinarith
  have hE0 : 0 < Real.exp (-ax * ax) := Real.exp_pos _
  have hE1 : Real.exp (-ax * ax) ≤ 1 := by
    have := Real.exp_le_exp.mpr (show -ax * ax ≤ 0 by nlinarith)
    simpa [Real.exp_zero] using this
  have hP0 : 0 < erfPoly t * t := by
    have := erfPoly_pos t
    nlinarith
  have hP1 : erfPoly t * t ≤ 1.392 := by
    have := t_mul_erfPoly_le t ht0.le ht1
    nlinarith
  constructor
  · nlinarith [mul_le_mul hP1 hE1 (le_of_lt hE0) (by norm_num : (0:ℝ) ≤ 1.392)]
  · nlinarith [mul_pos hP0 hE0]

/-- The Abramowitz–Stegun `erf` always lies strictly between `-1` and `1`. -/
lemma erf_bounds (x : ℝ) : -1 < erf x ∧ erf x < 1 := by
  rw [erf_eq_sign_mul]
  rcases erfCore_bounds |x| (abs_nonneg x) with ⟨hlo, hhi⟩
  by_cases hx : x < 0
  · rw [if_pos hx]; constructor <;> nlinarith
  · rw [if_neg hx]; constructor <;> nlinarith

/-- Oddness of the Abramowitz–Stegun `erf` away from zero:
`erf (-x) = -erf x` whenever `x ≠ 0`. -/
lemma erf_neg_of_ne (x : ℝ) (hx : x ≠ 0) : erf (-x) = -erf x := by
  rw [erf_eq_sign_mul, erf_eq_sign_mul, abs_neg]
  rcases lt_or_gt_of_ne hx with h | h
  · rw [if_pos h, if_neg (by linarith : ¬(-x < 0))]; ring
  · rw [if_neg (by linarith : ¬(x < 0)), if_pos (by linarith : -x < 0)]; ring

/-- At zero the approximation does not vanish: `erf 0 = 10⁻⁹` exactly (the
five coefficients sum to `0.999999999`, not to `1`). -/
lemma erf_zero_val : erf 0 = 1 / 10 ^ 9 := by
  unfold erf
  norm_num [Real.exp_zero]

/-- Both source spellings of the normal CDF agree: `0.5*(1+e) = (1+e)/2`. -/
lemma N_eq_N_v2 (x : ℝ) : N x = N_v2 x := by unfold N N_v2; ring

/-- Both source spellings of the normal PDF agree. -/
lemma nPdf_eq_phi (x : ℝ) : nPdf x = phi x := by
  unfold nPdf phi
  congr 1
  ring_nf

/-- The CDF built from the Abramowitz–Stegun `erf` stays inside `[0, 1]`. -/
lemma N_bounds (x : ℝ) : 0 ≤ N x ∧ N x ≤ 1 := by
  rcases erf_bounds (x / Real.sqrt 2) with ⟨h1, h2⟩
  unfold N
  constructor <;> nlinarith

/-- `erf y + erf (-y)` is `0` away from zero and `2·10⁻⁹` at zero; in both
cases it lies in `[0, 2·10⁻⁹]`. -/
lemma erf_add_neg_mem (y : ℝ) : 0 ≤ erf y + erf (-y) ∧ erf y + erf (-y) ≤ 2 / 10 ^ 9 := by
  by_cases hy : y = 0
  · subst hy
    rw [neg_zero, erf_zero_val]
    norm_num
  · rw [erf_neg_of_ne y hy]
    norm_num

/-- Complement identity for the derived CDF, valid away from zero. -/
lemma N_add_neg (x : ℝ) (hx : x ≠ 0) : N x + N (-x) = 1 := by
  have hs : Real.sqrt 2 ≠ 0 := by
    have : (0:ℝ) < Real.sqrt 2 := Real.sqrt_pos.mpr (by norm_num)
    exact ne_of_gt this
  have harg : x / Real.sqrt 2 ≠ 0 := div_ne_zero hx hs
  unfold N
  rw [show -x / Real.sqrt 2 = -(x / Real.sqrt 2) by ring, erf_neg_of_ne _ harg]
  ring

/-- `roundTo` moves a value by at most half a unit in the last place. -/
lemma roundTo_abs_sub (n : ℕ) (x : ℝ) : |roundTo n x - x| ≤ 1 / (2 * 10 ^ n) := by
  unfold roundTo
  have hpow : (0:ℝ) < 10 ^ n := by positivity
  have h := abs_sub_round (x * 10 ^ n)
  rw [abs_sub_comm] at h
  have : |((round (x * 10 ^ n) : ℤ) : ℝ) / 10 ^ n - x|
      = |((round (x * 10 ^ n) : ℤ) : ℝ) - x * 10 ^ n| / 10 ^ n := by
    rw [← abs_of_pos hpow, ← abs_div]
    congr 1
    field_simp
    ring
  rw [this]
  rw [div_le_div_iff hpow (by positivity)]
  calc |((round (x * 10 ^ n) : ℤ) : ℝ) - x * 10 ^ n| * (2 * 10 ^ n)
      ≤ (1 / 2) * (2 * 10 ^ n) := by
        apply mul_le_mul_of_nonneg_right h (by positivity)
    _ = 1 * 10 ^ n := by ring

/-- `roundTo` is monotone. -/
lemma roundTo_mono (n : ℕ) {x y : ℝ} (h : x ≤ y) : roundTo n x ≤ roundTo n y := by
  unfold roundTo
  have hpow : (0:ℝ) < 10 ^ n := by positivity
  have hr : round (x * 10 ^ n) ≤ round (y * 10 ^ n) := by
    rw [round_eq, round_eq]
    exact Int.floor_le_floor (by nlinarith)
  have hc : ((round (x * 10 ^ n) : ℤ) : ℝ) ≤ ((round (y * 10 ^ n) : ℤ) : ℝ) := by
    exact_mod_cast hr
  exact div_le_div_of_nonneg_right hc hpow.le

/-- `roundTo n 0 = 0`. -/
lemma roundTo_zero (n : ℕ) : roundTo n 0 = 0 := by
  unfold roundTo
  norm_num

/-- `roundTo n 1 = 1`. -/
lemma roundTo_one (n : ℕ) : roundTo n 1 = 1 := by
  unfold roundTo
  rw [one_mul, show ((10:ℝ) ^ n) = ((10 ^ n : ℤ) : ℝ) by push_cast; ring, round_intCast]
  field_simp

/-- Rounding a value of `[0,1]` stays in `[0,1]`. -/
lemma roundTo_mem_unit (n : ℕ) {x : ℝ} (h0 : 0 ≤ x) (h1 : x ≤ 1) :
    0 ≤ roundTo n x ∧ roundTo n x ≤ 1 := by
  constructor
  · have := roundTo_mono n h0
    rwa [roundTo_zero] at this
  · have := roundTo_mono n h1
    rwa [roundTo_one] at this

/-- Explicit evaluation of `roundTo`: if `x·10ⁿ + 1/2` lies in `[m, m+1)`
then `roundTo n x = m / 10ⁿ`. -/
lemma roundTo_eq_of (n : ℕ) (m : ℤ) {x : ℝ} (h1 : (m : ℝ) - 1/2 ≤ x * 10 ^ n)
    (h2 : x * 10 ^ n < (m : ℝ) + 1/2) : roundTo n x = (m : ℝ) / 10 ^ n := by
  unfold roundTo
  have hm : round (x * 10 ^ n) = m := by
    rw [round_eq]
    apply Int.floor_eq_iff.mpr
    constructor
    · linarith
    · push_cast
      linarith
  rw [hm]

/-- A value smaller than half a unit in the last place rounds to `0`. -/
lemma roundTo_eq_zero_of (n : ℕ) {x : ℝ} (h1 : -(1/2) ≤ x * 10 ^ n)
    (h2 : x * 10 ^ n < 1/2) : roundTo n x = 0 := by
  have := @roundTo_eq_of n 0 x (by push_cast; linarith) (by push_cast; linarith)
  simpa using this

/-- Claim C1, counterexample.  At `daysToExpiry = -1` the `src/server.js`
line 761 variant does not signal any invalid-parameter failure: it returns
intrinsic-value prices (`callPrice = max(spot-strike,0) = 10` for
`spot=100, strike=90`) together with `delta = 0.5`, and the line 247 variant
returns zero prices (alongside its `error` marker) — so the engine does not
uniformly "fail with InvalidParameters and compute no prices". -/
theorem claim_C1_counterexample :
    calculateGreeks_v2 100 90 (-1) 20 =
      { callPrice := 10, putPrice := 0, delta := 0.5, gamma := 0, theta := 0, vega := 0 } ∧
    (calculateGreeks_v1 100 90 (-1) 20).callPrice = 0 ∧
    (calculateGreeks_v1 100 90 (-1) 20).error = some ("Invalid inputs") := by
  refine ⟨?_, ?_, ?_⟩
  · unfold calculateGreeks_v2
    rw [if_pos (Or.inl (by norm_num))]
    congr 1 <;> norm_num
  · unfold calculateGreeks_v1
    rw [if_pos (Or.inl (by norm_num))]
  · unfold calculateGreeks_v1
    rw [if_pos (Or.inl (by norm_num))]

/-- Claim C1, amended.  When `daysToExpiry <= 0` or `volatility <= 0`
(equivalently `T <= 0 || sigma <= 0`), the guarded `src/server.js` variant
(line 247) short-circuits to a result whose numeric fields are all zero and
whose `error` field is `'Invalid inputs'` (it does not identify which
precondition failed), while the fallback variant (line 761) instead returns
intrinsic-value prices with `delta = 0.5` and no error marker; `spot <= 0`
is not validated by either guard. -/
theorem claim_C1_amended (spot strike daysToExpiry iv : ℝ)
    (h : daysToExpiry ≤ 0 ∨ iv ≤ 0) :
    calculateGreeks_v1 spot strike daysToExpiry iv =
      { delta := 0, gamma := 0, theta := 0, vega := 0, callPrice := 0, putPrice := 0,
        error := some ("Invalid inputs") } ∧
    calculateGreeks_v2 spot strike daysToExpiry iv =
      { callPrice := max (spot - strike) 0, putPrice := max (strike - spot) 0,
        delta := 0.5, gamma := 0, theta := 0, vega := 0 } := by
  have hguard : daysToExpiry / 365 ≤ 0 ∨ iv / 100 ≤ 0 := by
    rcases h with h | h
    · exact Or.inl (by linarith)
    · exact Or.inr (by linarith)
  constructor
  · unfold calculateGreeks_v1
    rw [if_pos hguard]
  · unfold calculateGreeks_v2
    rw [if_pos hguard]

/-- Witness for the amended claim C1 at `daysToExpiry = -1`. -/
theorem claim_C1_witness :
    ((-1 : ℝ) ≤ 0 ∨ (20 : ℝ) ≤ 0) ∧
    (calculateGreeks_v1 100 90 (-1) 20 =
      { delta := 0, gamma := 0, theta := 0, vega := 0, callPrice := 0, putPrice := 0,
        error := some ("Invalid inputs") } ∧
    calculateGreeks_v2 100 90 (-1) 20 =
      { callPrice := max (100 - 90) 0, putPrice := max (90 - 100) 0,
        delta := 0.5, gamma := 0, theta := 0, vega := 0 }) :=
  ⟨Or.inl (by norm_num), claim_C1_amended 100 90 (-1) 20 (Or.inl (by norm_num))⟩

/-- Claim C2.  The `src/unnamed/part_000` engine does not return a value or a
structured invalid-parameter result: because `Math.erf` is not a function in
any conforming ECMAScript engine, every invocation — here the spec's own
concrete scenario `spot=25142, strike=25100, daysToExpiry=7, volatility=15,`
`riskFreeRate=6.5` — throws a `TypeError` that escapes to the caller. -/
theorem claim_C2_theorem :
    calculateGreeks_p0 25142 25100 7 15 6.5 = Except.error JsError.typeError := rfl

/-- Claim C3 (put–call parity).  For every valid input the unrounded call
and put of the `src/server.js` line 761 variant satisfy
`call - put = spot - strike·exp(-r·T)` up to `(spot+strike)·10⁻⁹` —
far inside the spec's 1e-6 relative tolerance; the deviation is nonzero only
when `d1` or `d2` is exactly zero, where `erf 0 = 10⁻⁹`. -/
theorem claim_C3_parity (spot strike dte vol : ℝ)
    (hs : 0 < spot) (hk : 0 < strike) (hd : 0 < dte) (hv : 0 < vol) :
    |v2_callRaw spot strike dte vol - v2_putRaw spot strike dte vol -
      (spot - strike * Real.exp (-rfrate * (dte / 365)))| ≤ (spot + strike) / 10 ^ 9 := by
  have hE0 : 0 < Real.exp (-rfrate * (dte / 365)) := Real.exp_pos _
  have hE1 : Real.exp (-rfrate * (dte / 365)) ≤ 1 := by
    rw [show (1:ℝ) = Real.exp 0 by rw [Real.exp_zero]]
    apply Real.exp_le_exp.mpr
    unfold rfrate
    nlinarith
  have key : v2_callRaw spot strike dte vol - v2_putRaw spot strike dte vol -
      (spot - strike * Real.exp (-rfrate * (dte / 365))) =
      spot * (erf (v2_d1 spot strike dte vol / Real.sqrt 2) +
        erf (-(v2_d1 spot strike dte vol / Real.sqrt 2))) / 2 -
      strike * Real.exp (-rfrate * (dte / 365)) *
        (erf (v2_d2 spot strike dte vol / Real.sqrt 2) +
         erf (-(v2_d2 spot strike dte vol / Real.sqrt 2))) / 2 := by
    unfold v2_callRaw v2_putRaw N_v2
    rw [show -v2_d2 spot strike dte vol / Real.sqrt 2 =
        -(v2_d2 spot strike dte vol / Real.sqrt 2) from neg_div _ _,
      show -v2_d1 spot strike dte vol / Real.sqrt 2 =
        -(v2_d1 spot strike dte vol / Real.sqrt 2) from neg_div _ _]
    ring
  rw [key]
  rcases erf_add_neg_mem (v2_d1 spot strike dte vol / Real.sqrt 2) with ⟨h1l, h1u⟩
  rcases erf_add_neg_mem (v2_d2 spot strike dte vol / Real.sqrt 2) with ⟨h2l, h2u⟩
  rw [abs_le]
  have hb1 : spot * (erf (v2_d1 spot strike dte vol / Real.sqrt 2) +
      erf (-(v2_d1 spot strike dte vol / Real.sqrt 2))) ≤ spot * (2 / 10 ^ 9) :=
    mul_le_mul_of_nonneg_left h1u hs.le
  have hb2 : strike * Real.exp (-rfrate * (dte / 365)) *
      (erf (v2_d2 spot strike dte vol / Real.sqrt 2) +
       erf (-(v2_d2 spot strike dte vol / Real.sqrt 2))) ≤
      strike * 1 * (2 / 10 ^ 9) := by
    apply mul_le_mul (by nlinarith) h2u h2l (by nlinarith)
  have hb3 : 0 ≤ spot * (erf (v2_d1 spot strike dte vol / Real.sqrt 2) +
      erf (-(v2_d1 spot strike dte vol / Real.sqrt 2))) := mul_nonneg hs.le h1l
  have hb4 : 0 ≤ strike * Real.exp (-rfrate * (dte / 365)) *
      (erf (v2_d2 spot strike dte vol / Real.sqrt 2) +
       erf (-(v2_d2 spot strike dte vol / Real.sqrt 2))) :=
    mul_nonneg (mul_nonneg hk.le hE0.le) h2l
  constructor <;> nlinarith

/-- Witness for claim C3 at `spot=100, strike=90, daysToExpiry=30, vol=20`. -/
theorem claim_C3_witness :
    ((0:ℝ) < 100 ∧ (0:ℝ) < 90 ∧ (0:ℝ) < 30 ∧ (0:ℝ) < 20) ∧
    |v2_callRaw 100 90 30 20 - v2_putRaw 100 90 30 20 -
      (100 - 90 * Real.exp (-rfrate * (30 / 365)))| ≤ (100 + 90) / 10 ^ 9 :=
  ⟨⟨by norm_num, by norm_num, by norm_num, by norm_num⟩,
    claim_C3_parity 100 90 30 20 (by norm_num) (by norm_num) (by norm_num) (by norm_num)⟩

/-- Claim C4 (delta bounds).  For every valid input the `src/server.js`
line 247 variant returns `delta = N(d1)` rounded to 4 decimals, and this
returned value lies in `[0, 1]` (as does the unrounded `N(d1)`). -/
theorem claim_C4_delta_bounds (spot strike daysToExpiry iv : ℝ)
    (hs : 0 < spot) (hk : 0 < strike) (hd : 0 < daysToExpiry) (hv : 0 < iv) :
    (calculateGreeks_v1 spot strike daysToExpiry iv).delta =
      roundTo 4 (N (v1_d1 spot strike daysToExpiry iv)) ∧
    0 ≤ (calculateGreeks_v1 spot strike daysToExpiry iv).delta ∧
    (calculateGreeks_v1 spot strike daysToExpiry iv).delta ≤ 1 := by
  have hguard : ¬(daysToExpiry / 365 ≤ 0 ∨ iv / 100 ≤ 0) := by
    push_neg
    constructor <;> positivity
  have hdelta : (calculateGreeks_v1 spot strike daysToExpiry iv).delta =
      roundTo 4 (N (v1_d1 spot strike daysToExpiry iv)) := by
    unfold calculateGreeks_v1
    rw [if_neg hguard]
    rfl
  refine ⟨hdelta, ?_, ?_⟩ <;> rw [hdelta]
  · exact (roundTo_mem_unit 4 (N_bounds _).1 (N_bounds _).2).1
  · exact (roundTo_mem_unit 4 (N_bounds _).1 (N_bounds _).2).2

/-- Witness for claim C4 at `spot=100, strike=90, daysToExpiry=30, iv=20`. -/
theorem claim_C4_witness :
    ((0:ℝ) < 100 ∧ (0:ℝ) < 90 ∧ (0:ℝ) < 30 ∧ (0:ℝ) < 20) ∧
    ((calculateGreeks_v1 100 90 30 20).delta = roundTo 4 (N (v1_d1 100 90 30 20)) ∧
     0 ≤ (calculateGreeks_v1 100 90 30 20).delta ∧
     (calculateGreeks_v1 100 90 30 20).delta ≤ 1) :=
  ⟨⟨by norm_num, by norm_num, by norm_num, by norm_num⟩,
    claim_C4_delta_bounds 100 90 30 20 (by norm_num) (by norm_num) (by norm_num) (by norm_num)⟩

/-- Claim C10, counterexample.  The hand-rolled `erf` is not odd at `0`:
`erf 0 = 10⁻⁹` (the five Abramowitz–Stegun coefficients sum to
`0.999999999`), so `erf (-0) = -erf 0` fails and `N(0) + N(-0) = 1 + 10⁻⁹ ≠ 1`. -/
theorem claim_C10_counterexample :
    erf 0 = 1 / 10 ^ 9 ∧ erf 0 ≠ -erf 0 ∧ N 0 + N (-0) ≠ 1 := by
  have h0 := erf_zero_val
  refine ⟨h0, ?_, ?_⟩
  · rw [h0]; norm_num
  · rw [neg_zero]
    unfold N
    rw [zero_div, h0]
    norm_num

/-- Claim C10, amended.  The Abramowitz–Stegun `erf` is odd away from zero —
`erf (-x) = -erf x` for every `x ≠ 0` — and consequently the derived CDF
satisfies `N(x) + N(-x) = 1` exactly for every `x ≠ 0`; at `x = 0` both
identities fail by exactly `erf 0 = 10⁻⁹`. -/
theorem claim_C10_amended (x : ℝ) (hx : x ≠ 0) :
    erf (-x) = -erf x ∧ N x + N (-x) = 1 :=
  ⟨erf_neg_of_ne x hx, N_add_neg x hx⟩

/-- Witness for the amended claim C10 at `x = 1`. -/
theorem claim_C10_witness :
    ((1:ℝ) ≠ 0) ∧ (erf (-1) = -erf 1 ∧ N 1 + N (-1) = 1) :=
  ⟨by norm_num, claim_C10_amended 1 (by norm_num)⟩


/-- `erfFP` at `+∞` evaluates to exactly `1`. -/
lemma erfFP_inf : erfFP FP.inf = FP.num 1 := by
  unfold erfFP
  have hp : FP.fmul (FP.num 0.3275911) FP.inf = FP.inf := by
    simp only [FP.fmul]
    rw [if_pos (by norm_num : (0:ℝ) < 0.3275911)]
  simp only [FP.flt, FP.fabs, hp, FP.fadd, FP.fdiv, FP.fneg, FP.fmul, FP.fexp, FP.fsub]
  norm_num

/-- `erfFP` at `-∞` evaluates to exactly `-1`. -/
lemma erfFP_ninf : erfFP FP.ninf = FP.num (-1) := by
  unfold erfFP
  have hp : FP.fmul (FP.num 0.3275911) FP.inf = FP.inf := by
    simp only [FP.fmul]
    rw [if_pos (by norm_num : (0:ℝ) < 0.3275911)]
  simp only [FP.flt, FP.fabs, hp, FP.fadd, FP.fdiv, FP.fneg, FP.fmul, FP.fexp, FP.fsub]
  norm_num

/-- Claim C9.  When `d1` (hence also the CDF argument) overflows to `±∞` in
floating point, the Abramowitz–Stegun `erf` of `src/server.js` saturates
exactly (`erf(+∞) = 1`, `erf(-∞) = -1`) and the derived normal CDF returns
exactly `1` at `+∞` and exactly `0` at `-∞` — never `NaN`. -/
theorem claim_C9_saturation :
    NFP FP.inf = FP.num 1 ∧ NFP FP.ninf = FP.num 0 ∧
    erfFP FP.inf = FP.num 1 ∧ erfFP FP.ninf = FP.num (-1) := by
  have hs2 : (0:ℝ) < Real.sqrt 2 := Real.sqrt_pos.mpr (by norm_num)
  have hdivi : FP.fdiv FP.inf (FP.num (Real.sqrt 2)) = FP.inf := by
    simp only [FP.fdiv]
    rw [if_pos hs2]
  have hdivn : FP.fdiv FP.ninf (FP.num (Real.sqrt 2)) = FP.ninf := by
    simp only [FP.fdiv]
    rw [if_pos hs2]
  refine ⟨?_, ?_, erfFP_inf, erfFP_ninf⟩
  · unfold NFP
    rw [hdivi, erfFP_inf]
    simp only [FP.fadd, FP.fdiv]
    norm_num
  · unfold NFP
    rw [hdivn, erfFP_ninf]
    simp only [FP.fadd, FP.fdiv]
    norm_num

/-- The line 247 variant's CDF spelling agrees with the spec's. -/
lemma N_eq_spec (x : ℝ) : N x = spec.Ncdf x := by unfold N spec.Ncdf; ring

/-- The line 761 variant's CDF spelling agrees with the spec's. -/
lemma N_v2_eq_spec (x : ℝ) : N_v2 x = spec.Ncdf x := rfl

/-- The line 247 variant's PDF spelling agrees with the spec's. -/
lemma nPdf_eq_spec (x : ℝ) : nPdf x = spec.phi x := by
  unfold nPdf spec.phi
  congr 1
  ring

/-- The line 761 variant's PDF spelling agrees with the spec's. -/
lemma phi_eq_spec (x : ℝ) : phi x = spec.phi x := by
  unfold phi spec.phi
  congr 1
  ring

/-- The hard-coded `r = 0.065` equals the spec's `riskFreeRate/100` at the
default `6.5`. -/
lemma rfrate_eq_spec : rfrate = spec.r 6.5 := by
  unfold rfrate spec.r
  norm_num

/-- `d1` of the line 247 variant is the spec's `d1` at the default rate. -/
lemma v1_d1_eq_spec (s k d v : ℝ) : v1_d1 s k d v = spec.d1 s k d v 6.5 := by
  unfold v1_d1 spec.d1 spec.r spec.sigma spec.T rfrate
  norm_num

/-- `d2` of the line 247 variant is the spec's `d2` at the default rate. -/
lemma v1_d2_eq_spec (s k d v : ℝ) : v1_d2 s k d v = spec.d2 s k d v 6.5 := by
  unfold v1_d2 spec.d2 spec.sigma spec.T
  rw [v1_d1_eq_spec]

/-- `d1` of the line 761 variant is the spec's `d1` at the default rate. -/
lemma v2_d1_eq_spec (s k d v : ℝ) : v2_d1 s k d v = spec.d1 s k d v 6.5 := by
  unfold v2_d1 spec.d1 spec.r spec.sigma spec.T rfrate
  ring_nf

/-- `d2` of the line 761 variant is the spec's `d2` at the default rate. -/
lemma v2_d2_eq_spec (s k d v : ℝ) : v2_d2 s k d v = spec.d2 s k d v 6.5 := by
  unfold v2_d2 spec.d2 spec.sigma spec.T
  rw [v2_d1_eq_spec]

/-- The line 247 variant's unrounded theta is exactly the spec's full annual
theta (risk-free-rate term included) divided by 365. -/
lemma v1_thetaRaw_eq_spec (s k d v : ℝ) :
    v1_thetaRaw s k d v = spec.thetaAnnual s k d v 6.5 / 365 := by
  unfold v1_thetaRaw spec.thetaAnnual
  rw [v1_d1_eq_spec, v1_d2_eq_spec, nPdf_eq_spec, N_eq_spec, rfrate_eq_spec]
  unfold spec.sigma spec.T
  ring

/-- The line 247 variant's unrounded vega is the spec's vega divided by 100. -/
lemma v1_vegaRaw_eq_spec (s k d v : ℝ) :
    v1_vegaRaw s k d v = spec.vega s k d v 6.5 / 100 := by
  unfold v1_vegaRaw spec.vega
  rw [v1_d1_eq_spec, nPdf_eq_spec]
  unfold spec.T
  ring

/-- The line 761 variant's unrounded vega is exactly the spec's vega. -/
lemma v2_vegaRaw_eq_spec (s k d v : ℝ) :
    v2_vegaRaw s k d v = spec.vega s k d v 6.5 := by
  unfold v2_vegaRaw spec.vega
  rw [v2_d1_eq_spec, phi_eq_spec]
  unfold spec.T
  rfl

/-- The line 761 variant's unrounded theta equals the spec's full annual
theta plus the risk-free-rate term it omits, divided by 365. -/
lemma v2_thetaRaw_eq_spec (s k d v : ℝ) :
    v2_thetaRaw s k d v = (spec.thetaAnnual s k d v 6.5 +
      spec.r 6.5 * k * Real.exp (-spec.r 6.5 * spec.T d) *
        spec.Ncdf (spec.d2 s k d v 6.5)) / 365 := by
  unfold v2_thetaRaw spec.thetaAnnual
  rw [v2_d1_eq_spec, phi_eq_spec]
  unfold spec.sigma spec.T
  ring

/-- The line 247 variant's unrounded gamma is the spec's gamma. -/
lemma v1_gammaRaw_eq_spec (s k d v : ℝ) :
    v1_gammaRaw s k d v = spec.gamma s k d v 6.5 := by
  unfold v1_gammaRaw spec.gamma
  rw [v1_d1_eq_spec, nPdf_eq_spec]
  unfold spec.sigma spec.T
  rfl

/-- The line 247 variant's unrounded call is the spec's call. -/
lemma v1_callRaw_eq_spec (s k d v : ℝ) :
    v1_callRaw s k d v = spec.call s k d v 6.5 := by
  unfold v1_callRaw spec.call
  rw [v1_d1_eq_spec, v1_d2_eq_spec, N_eq_spec, N_eq_spec, rfrate_eq_spec]
  unfold spec.T
  rfl

/-- The line 247 variant's unrounded put is the spec's put. -/
lemma v1_putRaw_eq_spec (s k d v : ℝ) :
    v1_putRaw s k d v = spec.put s k d v 6.5 := by
  unfold v1_putRaw spec.put
  rw [v1_d1_eq_spec, v1_d2_eq_spec, N_eq_spec, N_eq_spec, rfrate_eq_spec]
  unfold spec.T
  rfl

/-- For a valid input the `T <= 0 || sigma <= 0` guard is not taken. -/
lemma validGuardNeg (d v : ℝ) (hd : 0 < d) (hv : 0 < v) :
    ¬(d / 365 ≤ 0 ∨ v / 100 ≤ 0) := by
  push_neg
  constructor <;> positivity

/-- Field-level description of the line 247 variant's returned theta. -/
lemma v1_theta_field (s k d v : ℝ) (hd : 0 < d) (hv : 0 < v) :
    (calculateGreeks_v1 s k d v).theta = roundTo 2 (spec.thetaAnnual s k d v 6.5 / 365) := by
  unfold calculateGreeks_v1
  rw [if_neg (validGuardNeg d v hd hv)]
  show roundTo 2 (v1_thetaRaw s k d v) = _
  rw [v1_thetaRaw_eq_spec]

/-- Field-level description of the line 761 variant's returned theta. -/
lemma v2_theta_field (s k d v : ℝ) (hd : 0 < d) (hv : 0 < v) :
    (calculateGreeks_v2 s k d v).theta = roundTo 2 ((spec.thetaAnnual s k d v 6.5 +
      spec.r 6.5 * k * Real.exp (-spec.r 6.5 * spec.T d) *
        spec.Ncdf (spec.d2 s k d v 6.5)) / 365) := by
  unfold calculateGreeks_v2
  rw [if_neg (validGuardNeg d v hd hv)]
  show roundTo 2 (v2_thetaRaw s k d v) = _
  rw [v2_thetaRaw_eq_spec]

/-- Field-level description of the line 247 variant's returned vega. -/
lemma v1_vega_field (s k d v : ℝ) (hd : 0 < d) (hv : 0 < v) :
    (calculateGreeks_v1 s k d v).vega = roundTo 4 (spec.vega s k d v 6.5 / 100) := by
  unfold calculateGreeks_v1
  rw [if_neg (validGuardNeg d v hd hv)]
  show roundTo 4 (v1_vegaRaw s k d v) = _
  rw [v1_vegaRaw_eq_spec]

/-- Field-level description of the line 761 variant's returned vega. -/
lemma v2_vega_field (s k d v : ℝ) (hd : 0 < d) (hv : 0 < v) :
    (calculateGreeks_v2 s k d v).vega = roundTo 2 (spec.vega s k d v 6.5) := by
  unfold calculateGreeks_v2
  rw [if_neg (validGuardNeg d v hd hv)]
  show roundTo 2 (v2_vegaRaw s k d v) = _
  rw [v2_vegaRaw_eq_spec]

/-- Claim C5, amended.  For every valid input the guarded `src/server.js`
variant (line 247) returns the spec's full annual theta — risk-free-rate term
included — divided by 365 and rounded to 2 decimals; but the fallback
variant (line 761) omits the rate term: its returned theta is the rounding
of `(thetaAnnual + r·strike·exp(-r·T)·N(d2))/365`. -/
theorem claim_C5_amended (s k d v : ℝ)
    (hs : 0 < s) (hk : 0 < k) (hd : 0 < d) (hv : 0 < v) :
    (calculateGreeks_v1 s k d v).theta = roundTo 2 (spec.thetaAnnual s k d v 6.5 / 365) ∧
    (calculateGreeks_v2 s k d v).theta = roundTo 2 ((spec.thetaAnnual s k d v 6.5 +
      spec.r 6.5 * k * Real.exp (-spec.r 6.5 * spec.T d) *
        spec.Ncdf (spec.d2 s k d v 6.5)) / 365) :=
  ⟨v1_theta_field s k d v hd hv, v2_theta_field s k d v hd hv⟩

/-- Witness for the amended claim C5 at `spot=100, strike=90, d=30, vol=20`. -/
theorem claim_C5_witness :
    ((0:ℝ) < 100 ∧ (0:ℝ) < 90 ∧ (0:ℝ) < 30 ∧ (0:ℝ) < 20) ∧
    ((calculateGreeks_v1 100 90 30 20).theta =
      roundTo 2 (spec.thetaAnnual 100 90 30 20 6.5 / 365) ∧
    (calculateGreeks_v2 100 90 30 20).theta =
      roundTo 2 ((spec.thetaAnnual 100 90 30 20 6.5 +
        spec.r 6.5 * 90 * Real.exp (-spec.r 6.5 * spec.T 30) *
          spec.Ncdf (spec.d2 100 90 30 20 6.5)) / 365)) :=
  ⟨⟨by norm_num, by norm_num, by norm_num, by norm_num⟩,
    claim_C5_amended 100 90 30 20 (by norm_num) (by norm_num) (by norm_num) (by norm_num)⟩

/-- Claim C6, amended.  For every valid input the fallback `src/server.js`
variant (line 761) returns `vega = spot·φ(d1)·sqrt(T)` (no division by 100)
rounded to 2 decimals, but the guarded variant (line 247) divides by 100
(per-1% scaling) and rounds to 4 decimals. -/
theorem claim_C6_amended (s k d v : ℝ)
    (hs : 0 < s) (hk : 0 < k) (hd : 0 < d) (hv : 0 < v) :
    (calculateGreeks_v2 s k d v).vega = roundTo 2 (spec.vega s k d v 6.5) ∧
    (calculateGreeks_v1 s k d v).vega = roundTo 4 (spec.vega s k d v 6.5 / 100) :=
  ⟨v2_vega_field s k d v hd hv, v1_vega_field s k d v hd hv⟩

/-- Witness for the amended claim C6 at `spot=100, strike=90, d=30, vol=20`. -/
theorem claim_C6_witness :
    ((0:ℝ) < 100 ∧ (0:ℝ) < 90 ∧ (0:ℝ) < 30 ∧ (0:ℝ) < 20) ∧
    ((calculateGreeks_v2 100 90 30 20).vega = roundTo 2 (spec.vega 100 90 30 20 6.5) ∧
    (calculateGreeks_v1 100 90 30 20).vega =
      roundTo 4 (spec.vega 100 90 30 20 6.5 / 100)) :=
  ⟨⟨by norm_num, by norm_num, by norm_num, by norm_num⟩,
    claim_C6_amended 100 90 30 20 (by norm_num) (by norm_num) (by norm_num) (by norm_num)⟩

/-- Claim C7, amended.  For every valid input the guarded `src/server.js`
variant (line 247) rounds only at return — each returned field is the
rounding of the corresponding full-precision spec value — with delta to 4
decimals, gamma to 6, theta and both prices to 2, but vega to 4 decimals
(after its /100 scaling); the fallback variant (line 761) rounds vega to 2
decimals. -/
theorem claim_C7_amended (s k d v : ℝ)
    (hs : 0 < s) (hk : 0 < k) (hd : 0 < d) (hv : 0 < v) :
    (calculateGreeks_v1 s k d v).delta = roundTo 4 (spec.Ncdf (spec.d1 s k d v 6.5)) ∧
    (calculateGreeks_v1 s k d v).gamma = roundTo 6 (spec.gamma s k d v 6.5) ∧
    (calculateGreeks_v1 s k d v).theta = roundTo 2 (spec.thetaAnnual s k d v 6.5 / 365) ∧
    (calculateGreeks_v1 s k d v).callPrice = roundTo 2 (spec.call s k d v 6.5) ∧
    (calculateGreeks_v1 s k d v).putPrice = roundTo 2 (spec.put s k d v 6.5) ∧
    (calculateGreeks_v1 s k d v).vega = roundTo 4 (spec.vega s k d v 6.5 / 100) ∧
    (calculateGreeks_v2 s k d v).vega = roundTo 2 (spec.vega s k d v 6.5) := by
  have hn := validGuardNeg d v hd hv
  refine ⟨?_, ?_, v1_theta_field s k d v hd hv, ?_, ?_,
    v1_vega_field s k d v hd hv, v2_vega_field s k d v hd hv⟩
  · unfold calculateGreeks_v1
    rw [if_neg hn]
    show roundTo 4 (v1_deltaRaw s k d v) = _
    unfold v1_deltaRaw
    rw [N_eq_spec, v1_d1_eq_spec]
  · unfold calculateGreeks_v1
    rw [if_neg hn]
    show roundTo 6 (v1_gammaRaw s k d v) = _
    rw [v1_gammaRaw_eq_spec]
  · unfold calculateGreeks_v1
    rw [if_neg hn]
    show roundTo 2 (v1_callRaw s k d v) = _
    rw [v1_callRaw_eq_spec]
  · unfold calculateGreeks_v1
    rw [if_neg hn]
    show roundTo 2 (v1_putRaw s k d v) = _
    rw [v1_putRaw_eq_spec]

/-- Witness for the amended claim C7 at `spot=100, strike=90, d=30, vol=20`. -/
theorem claim_C7_witness :
    ((0:ℝ) < 100 ∧ (0:ℝ) < 90 ∧ (0:ℝ) < 30 ∧ (0:ℝ) < 20) ∧
    ((calculateGreeks_v1 100 90 30 20).delta =
      roundTo 4 (spec.Ncdf (spec.d1 100 90 30 20 6.5)) ∧
    (calculateGreeks_v1 100 90 30 20).gamma = roundTo 6 (spec.gamma 100 90 30 20 6.5) ∧
    (calculateGreeks_v1 100 90 30 20).theta =
      roundTo 2 (spec.thetaAnnual 100 90 30 20 6.5 / 365) ∧
    (calculateGreeks_v1 100 90 30 20).callPrice = roundTo 2 (spec.call 100 90 30 20 6.5) ∧
    (calculateGreeks_v1 100 90 30 20).putPrice = roundTo 2 (spec.put 100 90 30 20 6.5) ∧
    (calculateGreeks_v1 100 90 30 20).vega = roundTo 4 (spec.vega 100 90 30 20 6.5 / 100) ∧
    (calculateGreeks_v2 100 90 30 20).vega = roundTo 2 (spec.vega 100 90 30 20 6.5)) :=
  ⟨⟨by norm_num, by norm_num, by norm_num, by norm_num⟩,
    claim_C7_amended 100 90 30 20 (by norm_num) (by norm_num) (by norm_num) (by norm_num)⟩

/-- Rational brackets for `√2`. -/
lemma sqrt_two_bounds : 1.414213 < Real.sqrt 2 ∧ Real.sqrt 2 < 1.414214 := by
  constructor
  · rw [Real.lt_sqrt (by norm_num)]
    norm_num
  · rw [Real.sqrt_lt' (by norm_num)]
    norm_num

/-- Rational brackets for `√(2π)`. -/
lemma sqrt_two_pi_bounds :
    2.506628 < Real.sqrt (2 * Real.pi) ∧ Real.sqrt (2 * Real.pi) < 2.506629 := by
  have h1 := Real.pi_gt_d6
  have h2 := Real.pi_lt_d6
  constructor
  · rw [Real.lt_sqrt (by norm_num)]
    nlinarith
  · rw [Real.sqrt_lt' (by norm_num)]
    nlinarith

/-- Rational brackets for `exp(-0.1596125)` (which is `exp(-d1²/2)` at
`d1 = 0.565`), from the degree-4 Taylor sum with remainder. -/
lemma exp_neg_d1_bounds :
    0.8524 ≤ Real.exp (-0.1596125) ∧ Real.exp (-0.1596125) ≤ 0.85249 := by
  have hx : |(-0.1596125 : ℝ)| ≤ 1 := by
    rw [abs_of_nonpos (by norm_num)]
    norm_num
  have h := @Real.exp_bound (-0.1596125) hx 4 (by norm_num)
  simp only [Finset.sum_range_succ, Finset.sum_range_zero, Nat.factorial] at h
  rw [abs_le, abs_of_nonpos (by norm_num : (-0.1596125:ℝ) ≤ 0)] at h
  norm_num at h
  have key : Real.exp (-0.1596125) = Real.exp (-(12769 / 80000)) := by
    congr 1
    norm_num
  rw [key]
  constructor <;> nlinarith [h.1, h.2]

/-- Rational brackets for the normal PDF at `0.565`. -/
lemma nPdf_0565_bounds : 0.34005 < nPdf 0.565 ∧ nPdf 0.565 < 0.34015 := by
  have harg : (-0.5 * 0.565 * 0.565 : ℝ) = -0.1596125 := by norm_num
  have he := exp_neg_d1_bounds
  have hs := sqrt_two_pi_bounds
  have hspos : (0:ℝ) < Real.sqrt (2 * Real.pi) := by nlinarith [hs.1]
  unfold nPdf
  rw [harg]
  constructor
  · rw [lt_div_iff hspos]
    nlinarith [he.1, hs.2]
  · rw [div_lt_iff hspos]
    nlinarith [he.2, hs.1]

/-- The line 247 variant's `d1` at the at-the-money input
`spot = strike = 100, daysToExpiry = 365, iv = 100` is exactly `0.565`. -/
lemma v1_d1_atm : v1_d1 100 100 365 100 = 0.565 := by
  unfold v1_d1 rfrate
  norm_num [Real.log_one, Real.sqrt_one]

/-- The line 761 variant's `d1` at
`spot = strike = 10⁶, dte = 365, vol = 100` is exactly `0.565`. -/
lemma v2_d1_atm : v2_d1 1000000 1000000 365 100 = 0.565 := by
  unfold v2_d1 rfrate
  norm_num [Real.log_one, Real.sqrt_one]

/-- The line 761 variant's `d2` at the same input is exactly `-0.435`. -/
lemma v2_d2_atm : v2_d2 1000000 1000000 365 100 = -0.435 := by
  unfold v2_d2
  rw [v2_d1_atm]
  norm_num [Real.sqrt_one]

/-- The line 247 variant's unrounded vega at the at-the-money input reduces
to the PDF value itself. -/
lemma v1_vegaRaw_atm : v1_vegaRaw 100 100 365 100 = nPdf 0.565 := by
  unfold v1_vegaRaw
  rw [v1_d1_atm]
  norm_num [Real.sqrt_one]

/-- The returned vega of the line 247 variant at the at-the-money input is
exactly `0.3401`. -/
lemma v1_vega_atm_value : (calculateGreeks_v1 100 100 365 100).vega = 3401 / 10 ^ 4 := by
  have hb := nPdf_0565_bounds
  have hfield : (calculateGreeks_v1 100 100 365 100).vega = roundTo 4 (nPdf 0.565) := by
    unfold calculateGreeks_v1
    rw [if_neg (validGuardNeg 365 100 (by norm_num) (by norm_num))]
    show roundTo 4 (v1_vegaRaw 100 100 365 100) = _
    rw [v1_vegaRaw_atm]
  rw [hfield]
  have := @roundTo_eq_of 4 3401 (nPdf 0.565) (by push_cast; nlinarith [hb.1])
    (by push_cast; nlinarith [hb.2])
  rw [this]
  norm_num

/-- The spec's `d1` at `spot = strike = 100, daysToExpiry = 365, vol = 100`. -/
lemma spec_d1_atm : spec.d1 100 100 365 100 6.5 = 0.565 := by
  rw [← v1_d1_eq_spec, v1_d1_atm]

/-- Claim C6, counterexample.  At `spot = strike = 100, daysToExpiry = 365,`
`volatility = 100` the guarded `src/server.js` variant returns
`vega = 0.3401` — the spec value `spot·φ(d1)·sqrt(T) ≈ 34.008` divided by
100 (then rounded to 4 decimals) — so the returned vega does not equal the
no-division-by-100 formula the claim states. -/
theorem claim_C6_counterexample :
    (calculateGreeks_v1 100 100 365 100).vega ≠ spec.vega 100 100 365 100 6.5 := by
  have hb := nPdf_0565_bounds
  have hspec : spec.vega 100 100 365 100 6.5 = 100 * nPdf 0.565 := by
    unfold spec.vega spec.T
    rw [spec_d1_atm, ← nPdf_eq_spec]
    norm_num [Real.sqrt_one]
  rw [v1_vega_atm_value, hspec]
  intro heq
  nlinarith [hb.1]

/-- Claim C7, counterexample.  At the same input the guarded variant's
returned vega is `0.3401` (4 decimals), not the 2-decimal rounding `0.34` of
its own unrounded vega — so "vega rounded to 2 decimals" fails for this
variant. -/
theorem claim_C7_counterexample :
    (calculateGreeks_v1 100 100 365 100).vega ≠
      roundTo 2 (v1_vegaRaw 100 100 365 100) := by
  have hb := nPdf_0565_bounds
  have h2 : roundTo 2 (v1_vegaRaw 100 100 365 100) = (34 : ℝ) / 10 ^ 2 := by
    rw [v1_vegaRaw_atm]
    have := @roundTo_eq_of 2 34 (nPdf 0.565) (by push_cast; nlinarith [hb.1])
      (by push_cast; nlinarith [hb.2])
    rw [this]
    norm_num
  rw [v1_vega_atm_value, h2]
  norm_num

/-- Crude positive lower bound for the approximated CDF at `-0.435`. -/
lemma Ncdf_neg_0435_lb : 0.04 ≤ spec.Ncdf (-0.435) := by
  have hs2 := sqrt_two_bounds
  have hs2pos : (0:ℝ) < Real.sqrt 2 := by nlinarith [hs2.1]
  have hy_pos : (0:ℝ) < 0.435 / Real.sqrt 2 := by positivity
  set y : ℝ := 0.435 / Real.sqrt 2 with hy
  have hyhi : y < 0.3076 := by
    rw [hy, div_lt_iff hs2pos]
    nlinarith [hs2.1]
  have hkey : spec.Ncdf (-0.435) = (1 - erfCore y) / 2 := by
    unfold spec.Ncdf
    rw [show (-0.435 : ℝ) / Real.sqrt 2 = -y by rw [hy]; ring,
      erf_eq_sign_mul, if_pos (by linarith : -y < 0), abs_neg, abs_of_pos hy_pos]
    ring
  rw [hkey]
  unfold erfCore
  have hden : (0:ℝ) < 1 + 0.3275911 * y := by nlinarith
  have htlo : (0.908 : ℝ) < 1 / (1 + 0.3275911 * y) := by
    rw [lt_div_iff hden]
    nlinarith
  have hP := erfPoly_pos (1 / (1 + 0.3275911 * y))
  have hexp_lb : (0.905 : ℝ) ≤ Real.exp (-y * y) := by
    nlinarith [Real.add_one_le_exp (-y * y), hy_pos]
  have hPt : (0.112 : ℝ) * 0.908 ≤ erfPoly (1 / (1 + 0.3275911 * y)) *
      (1 / (1 + 0.3275911 * y)) :=
    mul_le_mul hP.le htlo.le (by norm_num) (by linarith)
  have hPtE : (0.112 : ℝ) * 0.908 * 0.905 ≤ erfPoly (1 / (1 + 0.3275911 * y)) *
      (1 / (1 + 0.3275911 * y)) * Real.exp (-y * y) :=
    mul_le_mul hPt hexp_lb (by norm_num) (by nlinarith)
  nlinarith [hPtE]

/-- Claim C5, counterexample.  At `spot = strike = 10⁶, daysToExpiry = 365,`
`volatility = 100` the fallback `src/server.js` variant's returned theta is
the rounding of `-spot·φ(d1)·σ/(2√T)/365 ≈ -465.87`, while the claim's value
— the full annual theta including the risk-free-rate term, divided by 365 —
is below `-520`; the omitted rate term exceeds 1, so the two rounded values
differ. -/
theorem claim_C5_counterexample :
    (calculateGreeks_v2 1000000 1000000 365 100).theta ≠
      roundTo 2 (spec.thetaAnnual 1000000 1000000 365 100 6.5 / 365) := by
  have hL : (calculateGreeks_v2 1000000 1000000 365 100).theta =
      roundTo 2 (v2_thetaRaw 1000000 1000000 365 100) := by
    unfold calculateGreeks_v2
    rw [if_neg (validGuardNeg 365 100 (by norm_num) (by norm_num))]
  have hsplit := v2_thetaRaw_eq_spec 1000000 1000000 365 100
  have harg : (-spec.r 6.5 * spec.T 365 : ℝ) = -0.065 := by
    unfold spec.r spec.T
    norm_num
  have hexp_lb : (0.935 : ℝ) ≤ Real.exp (-0.065) := by
    nlinarith [Real.add_one_le_exp (-0.065 : ℝ)]
  have hexp_pos : (0 : ℝ) < Real.exp (-0.065) := Real.exp_pos _
  have hN := Ncdf_neg_0435_lb
  have hNd2 : spec.d2 1000000 1000000 365 100 6.5 = -0.435 := by
    rw [← v2_d2_eq_spec, v2_d2_atm]
  have hR : (1 : ℝ) ≤ spec.r 6.5 * 1000000 * Real.exp (-spec.r 6.5 * spec.T 365) *
      spec.Ncdf (spec.d2 1000000 1000000 365 100 6.5) / 365 := by
    rw [harg, hNd2]
    unfold spec.r
    nlinarith [mul_le_mul hexp_lb hN (by norm_num) hexp_pos.le]
  have hLb := roundTo_abs_sub 2 (v2_thetaRaw 1000000 1000000 365 100)
  have hRb := roundTo_abs_sub 2 (spec.thetaAnnual 1000000 1000000 365 100 6.5 / 365)
  rw [abs_le] at hLb hRb
  rw [hL]
  intro heq
  have h1 := hLb.1
  have h2 := hRb.2
  nlinarith [heq, hsplit]

/-- `exp 13 < 10⁶`. -/
lemma exp_13_lt : Real.exp 13 < 1000000 := by
  have h : Real.exp 13 = Real.exp 1 ^ 13 := by
    rw [← Real.exp_nat_mul]
    norm_num
  rw [h]
  calc Real.exp 1 ^ 13 < 2.7182818286 ^ 13 := by
        apply pow_lt_pow_left Real.exp_one_lt_d9 (Real.exp_pos 1).le
        norm_num
    _ < 1000000 := by norm_num

/-- `10⁶ < exp 14`. -/
lemma exp_14_gt : 1000000 < Real.exp 14 := by
  have h : Real.exp 14 = Real.exp 1 ^ 14 := by
    rw [← Real.exp_nat_mul]
    norm_num
  rw [h]
  calc (1000000 : ℝ) < 2.7182818283 ^ 14 := by norm_num
    _ < Real.exp 1 ^ 14 := by
        apply pow_lt_pow_left Real.exp_one_gt_d9 (by norm_num)
        norm_num

/-- Rational brackets for `log 10⁶`. -/
lemma log_1e6_bounds : 13 < Real.log 1000000 ∧ Real.log 1000000 < 14 := by
  constructor
  · rw [Real.lt_log_iff_exp_lt (by norm_num)]
    exact exp_13_lt
  · rw [Real.log_lt_iff_lt_exp (by norm_num)]
    exact exp_14_gt

/-- Tail bound for the approximated CDF at a negative argument:
`N(-x) ≤ 0.7·exp(-(x/√2)²)`. -/
lemma N_neg_le_tail (x : ℝ) (hx : 0 < x) :
    N (-x) ≤ 0.7 * Real.exp (-(x / Real.sqrt 2) * (x / Real.sqrt 2)) := by
  have hs2pos : (0:ℝ) < Real.sqrt 2 := Real.sqrt_pos.mpr (by norm_num)
  have hy_pos : 0 < x / Real.sqrt 2 := by positivity
  unfold N
  rw [show -x / Real.sqrt 2 = -(x / Real.sqrt 2) from neg_div _ _,
    erf_eq_sign_mul, if_pos (by linarith : -(x / Real.sqrt 2) < 0),
    abs_neg, abs_of_pos hy_pos]
  unfold erfCore
  have hden : (0:ℝ) < 1 + 0.3275911 * (x / Real.sqrt 2) := by nlinarith
  have ht0 : 0 < 1 / (1 + 0.3275911 * (x / Real.sqrt 2)) := by positivity
  have ht1 : 1 / (1 + 0.3275911 * (x / Real.sqrt 2)) ≤ 1 := by
    rw [div_le_one hden]
    nlinarith
  have hP := t_mul_erfPoly_le _ ht0.le ht1
  have hE : 0 < Real.exp (-(x / Real.sqrt 2) * (x / Real.sqrt 2)) := Real.exp_pos _
  nlinarith [mul_le_mul_of_nonneg_right hP hE.le]

/-- `10¹⁰ ≤ exp 90`. -/
lemma pow_le_exp_90 : (10:ℝ) ^ 10 ≤ Real.exp 90 := by
  have h9 : (10:ℝ) ≤ Real.exp 9 := by nlinarith [Real.add_one_le_exp (9:ℝ)]
  have h : Real.exp 90 = Real.exp 9 ^ 10 := by
    rw [← Real.exp_nat_mul]
    norm_num
  rw [h]
  exact pow_le_pow_left (by norm_num) h9 10

/-- `exp (-90) ≤ 10⁻¹⁰`. -/
lemma exp_neg_90_le : Real.exp (-(90:ℝ)) ≤ 1 / 10 ^ 10 := by
  rw [Real.exp_neg]
  have hpos : (0:ℝ) < (10:ℝ) ^ 10 := by positivity
  calc (Real.exp 90)⁻¹ ≤ ((10:ℝ) ^ 10)⁻¹ := by
        apply inv_le_inv_of_le hpos pow_le_exp_90
    _ = 1 / 10 ^ 10 := by norm_num

/-- `260000 ≤ exp 27`. -/
lemma pow_le_exp_27 : (260000:ℝ) ≤ Real.exp 27 := by
  have h3 : (4:ℝ) ≤ Real.exp 3 := by nlinarith [Real.add_one_le_exp (3:ℝ)]
  have h : Real.exp 27 = Real.exp 3 ^ 9 := by
    rw [← Real.exp_nat_mul]
    norm_num
  rw [h]
  calc (260000:ℝ) ≤ 4 ^ 9 := by norm_num
    _ ≤ Real.exp 3 ^ 9 := pow_le_pow_left (by norm_num) h3 9

/-- `exp (-27) ≤ 1/260000`. -/
lemma exp_neg_27_le : Real.exp (-(27:ℝ)) ≤ 1 / 260000 := by
  rw [Real.exp_neg]
  calc (Real.exp 27)⁻¹ ≤ ((260000:ℝ))⁻¹ := by
        apply inv_le_inv_of_le (by norm_num) pow_le_exp_27
    _ = 1 / 260000 := by norm_num

/-- `d1` of the line 247 variant at `spot=0.001, strike=1000, d=365, iv=100`. -/
lemma v1_d1_small100 : v1_d1 0.001 1000 365 100 = -Real.log 1000000 + 0.565 := by
  unfold v1_d1 rfrate
  rw [show (0.001:ℝ) / 1000 = ((1000000:ℝ))⁻¹ by norm_num, Real.log_inv]
  norm_num [Real.sqrt_one]

/-- `d2` of the line 247 variant at the same input. -/
lemma v1_d2_small100 : v1_d2 0.001 1000 365 100 = -(Real.log 1000000 + 0.435) := by
  unfold v1_d2
  rw [v1_d1_small100]
  norm_num [Real.sqrt_one]
  ring

/-- `d1` of the line 247 variant at `spot=0.001, strike=1000, d=365, iv=200`. -/
lemma v1_d1_small200 : v1_d1 0.001 1000 365 200 = (-Real.log 1000000 + 2.065) / 2 := by
  unfold v1_d1 rfrate
  rw [show (0.001:ℝ) / 1000 = ((1000000:ℝ))⁻¹ by norm_num, Real.log_inv]
  norm_num [Real.sqrt_one]

/-- `d2` of the line 247 variant at the same input. -/
lemma v1_d2_small200 : v1_d2 0.001 1000 365 200 = -((Real.log 1000000 + 1.935) / 2) := by
  unfold v1_d2
  rw [v1_d1_small200]
  norm_num [Real.sqrt_one]
  ring

/-- At `spot=0.001, strike=1000, dte=365, iv=100` the unrounded call price of
the line 247 variant is boxed inside `(-0.004, 0.001]`. -/
lemma v1_callRaw_small100_bounds :
    -(0.004) ≤ v1_callRaw 0.001 1000 365 100 ∧ v1_callRaw 0.001 1000 365 100 ≤ 0.001 := by
  have hL := log_1e6_bounds
  have hs2 := sqrt_two_bounds
  have hs2pos : (0:ℝ) < Real.sqrt 2 := by nlinarith [hs2.1]
  have hx_pos : (0:ℝ) < Real.log 1000000 + 0.435 := by nlinarith [hL.1]
  have hN1 := N_bounds (v1_d1 0.001 1000 365 100)
  have hN2l := (N_bounds (v1_d2 0.001 1000 365 100)).1
  have hE0 : (0:ℝ) < Real.exp (-rfrate * ((365:ℝ) / 365)) := Real.exp_pos _
  have hE1 : Real.exp (-rfrate * ((365:ℝ) / 365)) ≤ 1 := by
    rw [show (1:ℝ) = Real.exp 0 by rw [Real.exp_zero]]
    apply Real.exp_le_exp.mpr
    unfold rfrate
    norm_num
  have htail : N (v1_d2 0.001 1000 365 100) ≤ 0.7 * Real.exp
      (-((Real.log 1000000 + 0.435) / Real.sqrt 2) *
        ((Real.log 1000000 + 0.435) / Real.sqrt 2)) := by
    rw [v1_d2_small100]
    exact N_neg_le_tail _ hx_pos
  have hy : (9.49:ℝ) ≤ (Real.log 1000000 + 0.435) / Real.sqrt 2 := by
    rw [le_div_iff hs2pos]
    nlinarith [hs2.2, hL.1]
  have hyy : Real.exp (-((Real.log 1000000 + 0.435) / Real.sqrt 2) *
      ((Real.log 1000000 + 0.435) / Real.sqrt 2)) ≤ Real.exp (-(90:ℝ)) := by
    apply Real.exp_le_exp.mpr
    nlinarith [hy]
  have h90 := exp_neg_90_le
  constructor
  · unfold v1_callRaw
    nlinarith [htail, hyy, h90, hN1.1, hE1, hE0, hN2l]
  · unfold v1_callRaw
    nlinarith [hN1.2, mul_nonneg (mul_nonneg (by norm_num : (0:ℝ) ≤ 1000) hE0.le) hN2l]

/-- At `spot=0.001, strike=1000, dte=365, iv=200` the unrounded call price of
the line 247 variant is boxed inside `(-0.004, 0.001]`. -/
lemma v1_callRaw_small200_bounds :
    -(0.004) ≤ v1_callRaw 0.001 1000 365 200 ∧ v1_callRaw 0.001 1000 365 200 ≤ 0.001 := by
  have hL := log_1e6_bounds
  have hs2 := sqrt_two_bounds
  have hs2pos : (0:ℝ) < Real.sqrt 2 := by nlinarith [hs2.1]
  have hx_pos : (0:ℝ) < (Real.log 1000000 + 1.935) / 2 := by nlinarith [hL.1]
  have hN1 := N_bounds (v1_d1 0.001 1000 365 200)
  have hN2l := (N_bounds (v1_d2 0.001 1000 365 200)).1
  have hE0 : (0:ℝ) < Real.exp (-rfrate * ((365:ℝ) / 365)) := Real.exp_pos _
  have hE1 : Real.exp (-rfrate * ((365:ℝ) / 365)) ≤ 1 := by
    rw [show (1:ℝ) = Real.exp 0 by rw [Real.exp_zero]]
    apply Real.exp_le_exp.mpr
    unfold rfrate
    norm_num
  have htail : N (v1_d2 0.001 1000 365 200) ≤ 0.7 * Real.exp
      (-(((Real.log 1000000 + 1.935) / 2) / Real.sqrt 2) *
        (((Real.log 1000000 + 1.935) / 2) / Real.sqrt 2)) := by
    rw [v1_d2_small200]
    exact N_neg_le_tail _ hx_pos
  have hy : (5.2:ℝ) ≤ ((Real.log 1000000 + 1.935) / 2) / Real.sqrt 2 := by
    rw [le_div_iff hs2pos]
    nlinarith [hs2.2, hL.1]
  have hyy : Real.exp (-(((Real.log 1000000 + 1.935) / 2) / Real.sqrt 2) *
      (((Real.log 1000000 + 1.935) / 2) / Real.sqrt 2)) ≤ Real.exp (-(27:ℝ)) := by
    apply Real.exp_le_exp.mpr
    nlinarith [hy]
  have h27 := exp_neg_27_le
  constructor
  · unfold v1_callRaw
    nlinarith [htail, hyy, h27, hN1.1, hE1, hE0, hN2l]
  · unfold v1_callRaw
    nlinarith [hN1.2, mul_nonneg (mul_nonneg (by norm_num : (0:ℝ) ≤ 1000) hE0.le) hN2l]

/-- The returned call price at `iv = 100` rounds to exactly `0`. -/
lemma v1_call_zero_100 : (calculateGreeks_v1 0.001 1000 365 100).callPrice = 0 := by
  have hb := v1_callRaw_small100_bounds
  unfold calculateGreeks_v1
  rw [if_neg (validGuardNeg 365 100 (by norm_num) (by norm_num))]
  show roundTo 2 (v1_callRaw 0.001 1000 365 100) = 0
  apply roundTo_eq_zero_of
  · nlinarith [hb.1]
  · nlinarith [hb.2]

/-- The returned call price at `iv = 200` rounds to exactly `0`. -/
lemma v1_call_zero_200 : (calculateGreeks_v1 0.001 1000 365 200).callPrice = 0 := by
  have hb := v1_callRaw_small200_bounds
  unfold calculateGreeks_v1
  rw [if_neg (validGuardNeg 365 200 (by norm_num) (by norm_num))]
  show roundTo 2 (v1_callRaw 0.001 1000 365 200) = 0
  apply roundTo_eq_zero_of
  · nlinarith [hb.1]
  · nlinarith [hb.2]

/-- Claim C8, counterexample.  The valid inputs
`(spot=0.001, strike=1000, daysToExpiry=365)` with volatilities `100` and
`200` differ only in volatility, yet both returned call prices are exactly
`0.00` after the 2-decimal rounding — the strictly larger volatility does
not yield a strictly larger `callPrice`. -/
theorem claim_C8_counterexample :
    (calculateGreeks_v1 0.001 1000 365 100).callPrice = 0 ∧
    (calculateGreeks_v1 0.001 1000 365 200).callPrice = 0 ∧
    ¬((calculateGreeks_v1 0.001 1000 365 100).callPrice <
      (calculateGreeks_v1 0.001 1000 365 200).callPrice) := by
  refine ⟨v1_call_zero_100, v1_call_zero_200, ?_⟩
  rw [v1_call_zero_100, v1_call_zero_200]
  exact lt_irrefl 0

/-- Claim C8, amended.  Vega positivity does hold — for every valid input
the unrounded vega `spot·φ(d1)·sqrt(T)` is strictly positive and the
returned (rounded) vega is nonnegative — so the *unrounded* prices are
strictly increasing in volatility wherever the standard argument applies;
but the *returned* 2-decimal prices are only weakly monotone: rounding can
map two distinct volatilities to equal prices, as at
`spot=0.001, strike=1000, daysToExpiry=365, volatility ∈ {100, 200}`. -/
theorem claim_C8_amended :
    (∀ s k d v : ℝ, 0 < s → 0 < k → 0 < d → 0 < v →
      0 < v2_vegaRaw s k d v ∧ 0 ≤ (calculateGreeks_v2 s k d v).vega) ∧
    (calculateGreeks_v1 0.001 1000 365 100).callPrice =
      (calculateGreeks_v1 0.001 1000 365 200).callPrice := by
  constructor
  · intro s k d v hs hk hd hv
    have hphi : 0 < phi (v2_d1 s k d v) := by
      unfold phi
      have h2pi : (0:ℝ) < Real.sqrt (2 * Real.pi) :=
        Real.sqrt_pos.mpr (by positivity)
      positivity
    have hsq : 0 < Real.sqrt (d / 365) := Real.sqrt_pos.mpr (by positivity)
    have hraw : 0 < v2_vegaRaw s k d v := by
      unfold v2_vegaRaw
      positivity
    refine ⟨hraw, ?_⟩
    have hfield : (calculateGreeks_v2 s k d v).vega =
        roundTo 2 (v2_vegaRaw s k d v) := by
      unfold calculateGreeks_v2
      rw [if_neg (validGuardNeg d v hd hv)]
    rw [hfield]
    have := roundTo_mono 2 hraw.le
    rwa [roundTo_zero] at this
  · rw [v1_call_zero_100, v1_call_zero_200]

/-- Witness for the amended claim C8 at `spot=100, strike=90, d=30, vol=20`. -/
theorem claim_C8_witness :
    ((0:ℝ) < 100 ∧ (0:ℝ) < 90 ∧ (0:ℝ) < 30 ∧ (0:ℝ) < 20) ∧
    (0 < v2_vegaRaw 100 90 30 20 ∧ 0 ≤ (calculateGreeks_v2 100 90 30 20).vega) :=
  ⟨⟨by norm_num, by norm_num, by norm_num, by norm_num⟩,
    claim_C8_amended.1 100 90 30 20 (by norm_num) (by norm_num) (by norm_num) (by norm_num)⟩
